import Mathlib

/-!
Shallow embedding of the Flappy-Kiro browser game core:
the simulation engine (`FlappyKiroGame`, from the game class source) and the
session controller (`FlappyKiroApp`, from `frontend/app.js`).

Numbers are modelled as exact rationals (`ℚ`).  The single source of
randomness, `Math.random()` in `generateWall`, is threaded as an explicit
oracle argument `r : ℚ` to the step function.  JavaScript property access on
`undefined` (reading `this.config` before `setDifficulty` bound it) is
modelled by `config : Option Config` together with an `Except` result for the
operations that dereference it.
-/

/-- A difficulty identifier: the three keys of `this.difficulties`. -/
inductive Difficulty : Type
  | easy
  | medium
  | hard
deriving DecidableEq, Repr

/-- One difficulty profile: the five tunables stored per difficulty in
`setupDifficulties`. -/
structure Config : Type where
  gravity : ℚ
  jumpStrength : ℚ
  wallSpeed : ℚ
  gapSize : ℚ
  wallSpacing : ℚ
deriving DecidableEq, Repr

/-- The `this.difficulties` table from `setupDifficulties`. -/
def difficulties : Difficulty → Config
  | .easy => { gravity := 3/10, jumpStrength := -6, wallSpeed := 2, gapSize := 200, wallSpacing := 300 }
  | .medium => { gravity := 4/10, jumpStrength := -7, wallSpeed := 3, gapSize := 160, wallSpacing := 280 }
  | .hard => { gravity := 5/10, jumpStrength := -8, wallSpeed := 4, gapSize := 120, wallSpacing := 250 }

/-- The controlled actor (`this.ghosty`). -/
structure Ghosty : Type where
  x : ℚ
  y : ℚ
  width : ℚ
  height : ℚ
  velocity : ℚ
deriving DecidableEq, Repr

/-- One gapped obstacle, as built by `generateWall`. -/
structure Wall : Type where
  x : ℚ
  topHeight : ℚ
  bottomY : ℚ
  bottomHeight : ℚ
  width : ℚ
  scored : Bool
deriving DecidableEq, Repr

/-- The collision kind passed to `endGame`. -/
inductive CollisionType : Type
  | boundary
  | wall
deriving DecidableEq, Repr

/-- The mutable state of one `FlappyKiroGame` instance.  `width`/`height` are
the canvas dimensions captured in the constructor; `difficulty`/`config` are
`none` until `setDifficulty` runs (JavaScript `undefined`). -/
structure GameState : Type where
  width : ℚ
  height : ℚ
  ghosty : Ghosty
  walls : List Wall
  score : ℕ
  gameRunning : Bool
  gameOver : Bool
  lastWallX : ℚ
  difficulty : Option Difficulty
  config : Option Config
deriving DecidableEq, Repr

/-- The game-over emission performed by `endGame`: one
`telemetry.collision(collisionType, score)` call plus one dispatched
`gameOver` CustomEvent carrying `{score, difficulty}`. -/
structure GameOverSignal : Type where
  score : ℕ
  difficulty : Option Difficulty
  reason : CollisionType
deriving DecidableEq, Repr

/-- The fault an operation hits when it dereferences an unbound
`this.config` (a JavaScript TypeError). -/
inductive StepErr : Type
  | unconfiguredTypeError
deriving DecidableEq, Repr

namespace FlappyKiroGame

/-- Source `reset()`: actor recentred, walls cleared, score zeroed, flags
lowered, `lastWallX = width`.  `difficulty`/`config` are untouched. -/
def reset (s : GameState) : GameState :=
  { s with
    ghosty := { x := 100, y := s.height / 2, width := 40, height := 40, velocity := 0 }
    walls := []
    score := 0
    gameRunning := false
    gameOver := false
    lastWallX := s.width }

/-- The constructor: capture canvas dimensions, then `reset()`.
`difficulty` and `config` start unbound. -/
def newGame (w h : ℚ) : GameState :=
  reset
    { width := w, height := h
      ghosty := { x := 100, y := h / 2, width := 40, height := 40, velocity := 0 }
      walls := [], score := 0, gameRunning := false, gameOver := false
      lastWallX := w, difficulty := none, config := none }

/-- Source `setDifficulty(difficulty)`: rebinds `this.difficulty` and
`this.config` unconditionally (the source has no state guard). -/
def setDifficulty (d : Difficulty) (s : GameState) : GameState :=
  { s with difficulty := some d, config := some (difficulties d) }

/-- Source `start()`: a `reset()`, then raise `gameRunning` and lower
`gameOver`. -/
def start (s : GameState) : GameState :=
  { reset s with gameRunning := true, gameOver := false }

/-- Source `stop()`: lowers `gameRunning`; nothing else in the state changes
(the listener removal and telemetry call are external effects). -/
def stop (s : GameState) : GameState :=
  { s with gameRunning := false }

/-- Source `jump()`: overwrite the actor's velocity with the bound profile's
`jumpStrength`. -/
def jump (cfg : Config) (s : GameState) : GameState :=
  { s with ghosty := { s.ghosty with velocity := cfg.jumpStrength } }

/-- A spacebar press routed through `handleKeyPress`: it calls `jump()` only
when `gameRunning && !gameOver`; `jump` then dereferences `this.config`,
which faults when no difficulty was ever bound. -/
def applyImpulse (s : GameState) : Except StepErr GameState :=
  if s.gameRunning = true ∧ s.gameOver = false then
    match s.config with
    | none => .error .unconfiguredTypeError
    | some cfg => .ok (jump cfg s)
  else .ok s

/-- The physics lines of `update()`: `velocity += gravity` then
`y += velocity` (semi-implicit Euler). -/
def physicsPhase (cfg : Config) (s : GameState) : GameState :=
  { s with ghosty := { s.ghosty with
      velocity := s.ghosty.velocity + cfg.gravity
      y := s.ghosty.y + (s.ghosty.velocity + cfg.gravity) } }

/-- The wall record built inside `generateWall()`: spawned at the right
edge with a randomised gap, where `r` stands for the `Math.random()` draw. -/
def mkWall (r : ℚ) (cfg : Config) (s : GameState) : Wall :=
  { x := s.width
    topHeight := r * (s.height - cfg.gapSize - 100) + 50
    bottomY := r * (s.height - cfg.gapSize - 100) + 50 + cfg.gapSize
    bottomHeight := s.height - (r * (s.height - cfg.gapSize - 100) + 50 + cfg.gapSize)
    width := 60
    scored := false }

/-- Source `generateWall()`: append the new wall and reset `lastWallX`. -/
def generateWall (r : ℚ) (cfg : Config) (s : GameState) : GameState :=
  { s with walls := s.walls ++ [mkWall r cfg s], lastWallX := s.width }

/-- The generation guard of `update()`: generate when the wall list is empty
or the most recent wall has receded `wallSpacing` from `lastWallX`. -/
def genPhase (r : ℚ) (cfg : Config) (s : GameState) : GameState :=
  match s.walls.getLast? with
  | none => generateWall r cfg s
  | some w => if cfg.wallSpacing ≤ s.lastWallX - w.x then generateWall r cfg s else s

/-- The scroll loop of `update()`: every wall moves left by `wallSpeed`. -/
def scrollPhase (cfg : Config) (s : GameState) : GameState :=
  { s with walls := s.walls.map (fun w => { w with x := w.x - cfg.wallSpeed }) }

/-- A wall is off screen when its trailing edge is left of the playfield. -/
def offScreen (w : Wall) : Bool :=
  decide (w.x + w.width < 0)

/-- The retirement filter of `update()`: drop off-screen walls; each dropped
wall with `scored = false` bumps the score once (the wall's flag is set as it
leaves, so it can never score again). -/
def retirePhase (s : GameState) : GameState :=
  { s with
    walls := s.walls.filter (fun w => ! offScreen w)
    score := s.score + (s.walls.filter (fun w => offScreen w && ! w.scored)).length }

/-- The ground/ceiling test of `checkCollisions`. -/
def boundaryHit (s : GameState) : Bool :=
  decide (s.ghosty.y ≤ 0 ∨ s.height ≤ s.ghosty.y + s.ghosty.height)

/-- Horizontal-overlap test of the wall loop in `checkCollisions`. -/
def overlaps (s : GameState) (w : Wall) : Bool :=
  decide (s.ghosty.x < w.x + w.width ∧ w.x < s.ghosty.x + s.ghosty.width)

/-- Gap-violation test of the wall loop in `checkCollisions`. -/
def gapViolation (s : GameState) (w : Wall) : Bool :=
  decide (s.ghosty.y < w.topHeight ∨ w.bottomY < s.ghosty.y + s.ghosty.height)

/-- Some still-present wall overlaps the actor and the actor is outside its
gap.  The loop ends the game at the first such wall; since `endGame` does not
depend on which wall fired, the outcome is this existential. -/
def wallHit (s : GameState) : Bool :=
  s.walls.any (fun w => overlaps s w && gapViolation s w)

/-- Source `endGame(collisionType)`: raise `gameOver`, lower `gameRunning`, emit the
game-over signal carrying the final score, difficulty and reason. -/
def endGame (c : CollisionType) (s : GameState) : GameState × Option GameOverSignal :=
  ({ s with gameOver := true, gameRunning := false },
   some { score := s.score, difficulty := s.difficulty, reason := c })

/-- Source `checkCollisions()`: boundary first (early return), then the wall
loop.  At most one `endGame` call can fire. -/
def collisionPhase (s : GameState) : GameState × Option GameOverSignal :=
  if boundaryHit s then endGame .boundary s
  else if wallHit s then endGame .wall s
  else (s, none)

/-- The body of `update()` once past the guard: physics, generation, scroll,
retirement, collision check, in that order. -/
def updateBody (r : ℚ) (cfg : Config) (s : GameState) : GameState × Option GameOverSignal :=
  collisionPhase (retirePhase (scrollPhase cfg (genPhase r cfg (physicsPhase cfg s))))

/-- One `update()` invocation (the engine's `step()`): early return when not
running or already over; otherwise dereference `this.config` — a TypeError
when unbound — and run the tick body. -/
def update (r : ℚ) (s : GameState) : Except StepErr (GameState × Option GameOverSignal) :=
  if s.gameRunning = false ∨ s.gameOver = true then .ok (s, none)
  else
    match s.config with
    | none => .error .unconfiguredTypeError
    | some cfg => .ok (updateBody r cfg s)

/-- Source `getScore()`. -/
def getScore (s : GameState) : ℕ := s.score

/-- Source `getDifficulty()`. -/
def getDifficulty (s : GameState) : Option Difficulty := s.difficulty

end FlappyKiroGame

/-- The controller's screen identifiers (`this.screens` keys). -/
inductive Screen : Type
  | menu
  | game
  | gameOver
  | leaderboard
deriving DecidableEq, Repr

/-- The state of one `FlappyKiroApp` session.  `username` is the live value
of the username input field; `submitDisabled` mirrors the submit button's
`disabled` attribute; `pendingSubmissions` counts score-submission `fetch`
calls issued but not yet resolved (environment state — the source keeps no
such variable, which is exactly what the in-flight claims turn on). -/
structure AppState : Type where
  currentScreen : Screen
  selectedDifficulty : Difficulty
  game : Option GameState
  username : String
  submitDisabled : Bool
  pendingSubmissions : ℕ
deriving DecidableEq, Repr

namespace FlappyKiroApp

/-- One character admitted by the pattern `[a-zA-Z0-9_-]`. -/
def validChar (c : Char) : Bool :=
  c.isLower || c.isUpper || c.isDigit || c = '_' || c = '-'

/-- The test `/^[a-zA-Z0-9_-]\x7b1,20\x7d$/.test(username)`: between 1 and
20 characters, all from the admitted class. -/
def matchesPattern (u : String) : Bool :=
  decide (1 ≤ u.length) && decide (u.length ≤ 20) && u.data.all validChar

/-- The denylist of `containsInappropriateContent`. -/
def inappropriateWords : List String :=
  ["admin", "root", "test", "null", "undefined"]

/-- `needle` occurs as a contiguous subsequence of the haystack
(JavaScript `String.prototype.includes`). -/
def containsSeq (needle : List Char) : List Char → Bool
  | [] => needle.isEmpty
  | c :: t => needle.isPrefixOf (c :: t) || containsSeq needle t

/-- JavaScript `toLowerCase()`, modelled on the character sequence. -/
def lowerData (u : String) : List Char :=
  u.data.map Char.toLower

/-- Source `containsInappropriateContent(username)`: some denylisted word
occurs, case-insensitively, as a substring of the username. -/
def containsInappropriateContent (u : String) : Bool :=
  inappropriateWords.any (fun w => containsSeq (lowerData w) (lowerData u))

/-- The verdict computed by `validateUsername`: pattern match and no
denylisted substring. -/
def usernameValid (u : String) : Bool :=
  matchesPattern u && ! containsInappropriateContent u

/-- The `input` listener: revalidate the live field and mirror the verdict
onto the submit button's `disabled` attribute. -/
def inputEvent (u : String) (a : AppState) : AppState :=
  { a with username := u, submitDisabled := ! usernameValid u }

/-- Source `showScreen(screenName)`: record the current screen (the CSS
class toggling is presentation). -/
def showScreen (sc : Screen) (a : AppState) : AppState :=
  { a with currentScreen := sc }

/-- The `back-to-menu` click handler: `showScreen('menu')` and nothing
else — the engine reference `this.game` is left in place and `stop()` is
never called. -/
def backToMenu (a : AppState) : AppState :=
  showScreen .menu a

/-- Source `submitScore()` up to its only gate: re-run `validateUsername` on the
live field; on failure alert and return without any network call; on
success issue the `fetch` (one more in-flight submission).  The returned
flag records whether a network request was issued. -/
def submitScore (a : AppState) : AppState × Bool :=
  if usernameValid a.username then
    ({ a with pendingSubmissions := a.pendingSubmissions + 1 }, true)
  else (a, false)

end FlappyKiroApp

/-! ## Concrete states used by witnesses and counterexamples -/

/-- A freshly started easy run on an 800 × 600 canvas. -/
def easyRun : GameState :=
  FlappyKiroGame.start (FlappyKiroGame.setDifficulty .easy (FlappyKiroGame.newGame 800 600))

/-- A run started without ever binding a difficulty profile. -/
def unconfiguredRun : GameState :=
  FlappyKiroGame.start (FlappyKiroGame.newGame 800 600)

/-- The easy run with the actor dropped near the floor, one tick from a
boundary collision. -/
def fallState : GameState :=
  { easyRun with ghosty := { easyRun.ghosty with y := 590 } }

/-- A game-over session: finished engine, valid username, one score
submission still in flight. -/
def pendingSession : AppState :=
  { currentScreen := .gameOver, selectedDifficulty := .easy
    game := some (FlappyKiroGame.stop easyRun), username := "Player_1"
    submitDisabled := false, pendingSubmissions := 1 }

/-- A game-over session whose username field fails the validation gate. -/
def invalidSession : AppState :=
  { currentScreen := .gameOver, selectedDifficulty := .easy
    game := some (FlappyKiroGame.stop easyRun), username := "a b"
    submitDisabled := true, pendingSubmissions := 0 }

/-- A game-over session with the engine reference still bound. -/
def gameOverSession : AppState :=
  { currentScreen := .gameOver, selectedDifficulty := .easy
    game := some (FlappyKiroGame.stop easyRun), username := "Player_1"
    submitDisabled := false, pendingSubmissions := 0 }

/-- The intermediate state of the fall tick — after physics, generation,
scroll and retirement, before the collision check — at random draw 0. -/
def fallMid : GameState :=
  FlappyKiroGame.retirePhase (FlappyKiroGame.scrollPhase (difficulties .easy)
    (FlappyKiroGame.genPhase 0 (difficulties .easy)
      (FlappyKiroGame.physicsPhase (difficulties .easy) fallState)))

/-- The wall list of the first easy tick after physics, generation and
scroll, at random draw 0. -/
def easyTickWalls : List Wall :=
  (FlappyKiroGame.scrollPhase (difficulties .easy) (FlappyKiroGame.genPhase 0 (difficulties .easy)
    (FlappyKiroGame.physicsPhase (difficulties .easy) easyRun))).walls

/-- The reachable-state wall invariant under a bound profile `cfg`: every
live wall is 60 wide, still unscored, and not yet past the left playfield
edge; wall abscissae are separated pairwise in list order by at least the
profile spacing; and `lastWallX` equals the playfield width (`reset()` and
`generateWall()` both set it so, and nothing else writes it). -/
def WallInv (cfg : Config) (s : GameState) : Prop :=
  (∀ w ∈ s.walls, w.width = 60 ∧ w.scored = false ∧ 0 ≤ w.x + w.width) ∧
  s.walls.Pairwise (fun a b => a.x + cfg.wallSpacing ≤ b.x) ∧
  s.lastWallX = s.width

/-! ## Helper lemmas -/

namespace FlappyKiroGame

/-- The generation guard either leaves the state alone or appends exactly
one wall at the right edge, the latter only when the list is empty or the
most recent wall has receded by at least the spacing. -/
theorem genPhase_cases (r : ℚ) (cfg : Config) (t : GameState) :
    genPhase r cfg t = t ∨
    (genPhase r cfg t = { t with walls := t.walls ++ [mkWall r cfg t], lastWallX := t.width } ∧
      (t.walls = [] ∨ ∃ w, t.walls.getLast? = some w ∧ cfg.wallSpacing ≤ t.lastWallX - w.x)) := by
  unfold genPhase
  cases h : t.walls.getLast? with
  | none =>
      right
      exact ⟨rfl, Or.inl (List.getLast?_eq_none_iff.mp h)⟩
  | some w =>
      dsimp only
      by_cases hcond : cfg.wallSpacing ≤ t.lastWallX - w.x
      · right
        rw [if_pos hcond]
        exact ⟨rfl, Or.inr ⟨w, rfl, hcond⟩⟩
      · left
        rw [if_neg hcond]

/-- Physics, generation, scroll and retirement change neither the actor
(beyond the physics integration itself) nor the flags, profile, or playfield
dimensions. -/
theorem midPhases_fields (r : ℚ) (cfg : Config) (s : GameState) :
    ∀ m, m = retirePhase (scrollPhase cfg (genPhase r cfg (physicsPhase cfg s))) →
      m.ghosty = (physicsPhase cfg s).ghosty ∧ m.gameRunning = s.gameRunning ∧
      m.gameOver = s.gameOver ∧ m.difficulty = s.difficulty ∧ m.config = s.config ∧
      m.width = s.width ∧ m.height = s.height := by
  intro m hm
  subst hm
  rcases genPhase_cases r cfg (physicsPhase cfg s) with h | ⟨h, -⟩ <;> rw [h] <;>
    exact ⟨rfl, rfl, rfl, rfl, rfl, rfl, rfl⟩

/-- The collision check leaves every component except the two flags as it
found them. -/
theorem collisionPhase_fst_fields (t : GameState) :
    (collisionPhase t).1.ghosty = t.ghosty ∧ (collisionPhase t).1.walls = t.walls ∧
    (collisionPhase t).1.score = t.score ∧ (collisionPhase t).1.width = t.width ∧
    (collisionPhase t).1.lastWallX = t.lastWallX ∧
    (collisionPhase t).1.difficulty = t.difficulty ∧
    (collisionPhase t).1.config = t.config ∧ (collisionPhase t).1.height = t.height := by
  unfold collisionPhase endGame
  split
  · exact ⟨rfl, rfl, rfl, rfl, rfl, rfl, rfl, rfl⟩
  · split
    · exact ⟨rfl, rfl, rfl, rfl, rfl, rfl, rfl, rfl⟩
    · exact ⟨rfl, rfl, rfl, rfl, rfl, rfl, rfl, rfl⟩

/-- Behaviour of the collision check on a non-terminal intermediate state:
the run ends exactly when the boundary or a wall is hit, and then exactly
one signal with the final score and the deciding reason is emitted. -/
theorem collisionPhase_spec (t : GameState) (hov : t.gameOver = false) :
    ((collisionPhase t).1.gameOver = true ↔ (boundaryHit t || wallHit t) = true) ∧
    ((boundaryHit t || wallHit t) = true →
        (collisionPhase t).1.gameOver = true ∧ (collisionPhase t).1.gameRunning = false ∧
        (collisionPhase t).2 = some { score := t.score
                                      difficulty := t.difficulty
                                      reason := if boundaryHit t then CollisionType.boundary
                                                else CollisionType.wall }) ∧
    ((boundaryHit t || wallHit t) = false → collisionPhase t = (t, none)) := by
  unfold collisionPhase endGame
  by_cases hb : boundaryHit t = true
  · simp [hb]
  · by_cases hwl : wallHit t = true <;>
      simp [hb, hwl, hov, Bool.not_eq_true] at *

/-- The actor after a full tick body is exactly the actor after the physics
integration: the later phases never touch it. -/
theorem updateBody_ghosty (r : ℚ) (cfg : Config) (t : GameState) :
    (updateBody r cfg t).1.ghosty = (physicsPhase cfg t).ghosty := by
  unfold updateBody
  rw [(collisionPhase_fst_fields _).1, (midPhases_fields r cfg t _ rfl).1]

/-- When the run guard passes and a profile is bound, `update` runs the
tick body. -/
theorem update_run (r : ℚ) (s : GameState) (cfg : Config)
    (h1 : s.gameRunning = true) (h2 : s.gameOver = false) (hc : s.config = some cfg) :
    update r s = .ok (updateBody r cfg s) := by
  have hng : ¬(s.gameRunning = false ∨ s.gameOver = true) := by simp [h1, h2]
  unfold update
  rw [if_neg hng, hc]

/-- In a pairwise-related list, the last element is related to (or equal to)
every member. -/
theorem pairwise_rel_getLast {α : Type} {R : α → α → Prop} :
    ∀ (l : List α) (b : α), l.Pairwise R → l.getLast? = some b →
      ∀ a ∈ l, a = b ∨ R a b := by
  intro l
  induction l with
  | nil => intro b _ hb; cases hb
  | cons x t ih =>
      intro b hp hb a ha
      cases t with
      | nil =>
          rcases List.mem_singleton.mp ha with rfl
          left
          simpa using hb
      | cons y t2 =>
          have hb2 : (y :: t2).getLast? = some b := hb
          rcases List.pairwise_cons.mp hp with ⟨hx, hp2⟩
          rcases List.mem_cons.mp ha with rfl | ha2
          · exact Or.inr (hx b (List.mem_of_mem_getLast? hb2))
          · exact ih b hp2 hb2 a ha2

/-- In a wall list whose abscissae all sit at or right of `lo` and are
pairwise separated by at least `sp`, at most one wall lies left of a window
edge `hi ≤ lo + sp`. -/
theorem count_window_le_one (sp hi lo : ℚ) (hwin : hi ≤ lo + sp) :
    ∀ L : List Wall, (∀ w ∈ L, lo ≤ w.x) →
      L.Pairwise (fun a b => a.x + sp ≤ b.x) →
      (L.filter (fun w => decide (w.x < hi))).length ≤ 1 := by
  intro L
  induction L with
  | nil => intro _ _; simp
  | cons a t ih =>
      intro hlo hp
      rcases List.pairwise_cons.mp hp with ⟨ha, hp2⟩
      by_cases hr : a.x < hi
      · have hnil : t.filter (fun w => decide (w.x < hi)) = [] := by
          apply List.filter_eq_nil_iff.mpr
          intro b hb
          have h1 := ha b hb
          have h2 := hlo a (List.mem_cons_self a t)
          simp only [decide_eq_true_eq]
          intro hbad
          linarith
        simp [List.filter_cons, hr, hnil]
      · have hstep := ih (fun w hw => hlo w (List.mem_cons_of_mem a hw)) hp2
        simpa [List.filter_cons, hr] using hstep

/-- Retirement adds to the score one point per dropped wall when every live
wall is still unscored, and keeps exactly the on-screen walls. -/
theorem retirePhase_spec (X : GameState) (hsc : ∀ w ∈ X.walls, w.scored = false) :
    (retirePhase X).score = X.score + (X.walls.filter offScreen).length ∧
    (retirePhase X).walls = X.walls.filter (fun w => ! offScreen w) := by
  refine ⟨?_, rfl⟩
  unfold retirePhase
  have : X.walls.filter (fun w => offScreen w && ! w.scored) = X.walls.filter offScreen := by
    apply List.filter_congr
    intro w hw
    rw [hsc w hw]
    simp
  rw [this]

end FlappyKiroGame

/-! ## Claims -/

/-- C10: `stop()` mutates only the running flag (setting it false); the
score, terminal flag, actor, obstacle list and bound profile are unchanged,
so an externally cancelled run ends non-running but non-terminal. -/
theorem stop_only_clears_running (s : GameState) :
    FlappyKiroGame.stop s = { s with gameRunning := false } ∧
    (FlappyKiroGame.stop s).gameRunning = false ∧
    (FlappyKiroGame.stop s).score = s.score ∧
    (FlappyKiroGame.stop s).gameOver = s.gameOver ∧
    (FlappyKiroGame.stop s).ghosty = s.ghosty ∧
    (FlappyKiroGame.stop s).walls = s.walls ∧
    (FlappyKiroGame.stop s).difficulty = s.difficulty ∧
    (FlappyKiroGame.stop s).config = s.config :=
  ⟨rfl, rfl, rfl, rfl, rfl, rfl, rfl, rfl⟩

/-- C5 counterexample: on a state with a run active (`gameRunning = true`),
`setDifficulty` does not fail — it silently rebinds the profile, against the
claimed invalid-state error. -/
theorem setDifficulty_while_running_rebinds :
    easyRun.gameRunning = true ∧
    FlappyKiroGame.setDifficulty .medium easyRun =
      { easyRun with difficulty := some .medium, config := some (difficulties .medium) } :=
  ⟨rfl, rfl⟩

/-- C5 amended: `setDifficulty` is total and unguarded — in every state,
active run or not, it rebinds the difficulty and profile and changes nothing
else. -/
theorem setDifficulty_always_rebinds (d : Difficulty) (s : GameState) :
    FlappyKiroGame.setDifficulty d s =
      { s with difficulty := some d, config := some (difficulties d) } :=
  rfl

/-- C9 counterexample: the back-to-menu trigger from the game-over screen
switches to the menu screen but retains the engine reference — `this.game`
is not discarded. -/
theorem backToMenu_retains_engine :
    (FlappyKiroApp.backToMenu gameOverSession).currentScreen = Screen.menu ∧
    (FlappyKiroApp.backToMenu gameOverSession).game = some (FlappyKiroGame.stop easyRun) ∧
    some (FlappyKiroGame.stop easyRun) ≠ (none : Option GameState) :=
  ⟨rfl, rfl, by simp⟩

/-- C9 amended: the back-to-menu handler transitions to the menu screen and
leaves everything else — in particular the engine reference and the engine's
own state — untouched; it never calls `stop()` and the controller wires no
cancel trigger from the playing screen. -/
theorem backToMenu_only_switches_screen (a : AppState) :
    FlappyKiroApp.backToMenu a = { a with currentScreen := Screen.menu } :=
  rfl

/-- C8 counterexample: with one submission already in flight and a valid
username, a second submit passes the gate and issues a second network
request — nothing disables resubmission. -/
theorem submit_while_pending_sends_again :
    pendingSession.pendingSubmissions = 1 ∧
    FlappyKiroApp.usernameValid pendingSession.username = true ∧
    (FlappyKiroApp.submitScore pendingSession).2 = true ∧
    (FlappyKiroApp.submitScore pendingSession).1.pendingSubmissions = 2 := by
  refine ⟨rfl, by decide, ?_, ?_⟩ <;> simp [FlappyKiroApp.submitScore, pendingSession] <;> decide

/-- C8 amended: the submit gate consults only username validity and no
in-flight state, so every submit with a valid username — also one issued
while a prior submission is pending — sends a network request. -/
theorem submit_gate_ignores_pending (a : AppState)
    (h : FlappyKiroApp.usernameValid a.username = true) :
    (FlappyKiroApp.submitScore a).2 = true ∧
    (FlappyKiroApp.submitScore a).1.pendingSubmissions = a.pendingSubmissions + 1 := by
  simp [FlappyKiroApp.submitScore, h]

/-- C8 amended, witness at the in-flight session. -/
theorem submit_gate_ignores_pending_witness :
    (FlappyKiroApp.submitScore pendingSession).2 = true ∧
    (FlappyKiroApp.submitScore pendingSession).1.pendingSubmissions =
      pendingSession.pendingSubmissions + 1 :=
  submit_gate_ignores_pending pendingSession (by decide)

/-- C7: the username gate accepts exactly the strings matching the
1-to-20-character `[a-zA-Z0-9_-]` pattern with no denylisted word as a
case-insensitive substring; it is re-evaluated inside `submitScore`, whose
network request is issued exactly when the gate passes and which returns
untouched, with no request, when the gate fails; `"Player_1"` passes while
`"admin"`, `"root2"`, `"a b"`, every 21-character string and the empty
string fail. -/
theorem username_gate_spec :
    (∀ u : String, FlappyKiroApp.usernameValid u = true ↔
        (FlappyKiroApp.matchesPattern u = true ∧
         FlappyKiroApp.containsInappropriateContent u = false)) ∧
    (∀ a : AppState,
        (FlappyKiroApp.submitScore a).2 = FlappyKiroApp.usernameValid a.username) ∧
    (∀ a : AppState, FlappyKiroApp.usernameValid a.username = false →
        FlappyKiroApp.submitScore a = (a, false)) ∧
    FlappyKiroApp.usernameValid "Player_1" = true ∧
    FlappyKiroApp.usernameValid "admin" = false ∧
    FlappyKiroApp.usernameValid "root2" = false ∧
    FlappyKiroApp.usernameValid "a b" = false ∧
    FlappyKiroApp.usernameValid "" = false ∧
    (∀ u : String, u.length = 21 → FlappyKiroApp.usernameValid u = false) := by
  refine ⟨?_, ?_, ?_, by decide, by decide, by decide, by decide, by decide, ?_⟩
  · intro u
    simp [FlappyKiroApp.usernameValid]
  · intro a
    unfold FlappyKiroApp.submitScore
    split <;> simp_all
  · intro a h
    simp [FlappyKiroApp.submitScore, h]
  · intro u h
    simp [FlappyKiroApp.usernameValid, FlappyKiroApp.matchesPattern, h]

/-- C7 witness: the gate is instantiated at a concrete 21-character string
and at the concrete session whose username fails the gate. -/
theorem username_gate_spec_witness :
    FlappyKiroApp.usernameValid "aaaaaaaaaaaaaaaaaaaaa" = false ∧
    FlappyKiroApp.usernameValid invalidSession.username = false ∧
    FlappyKiroApp.submitScore invalidSession = (invalidSession, false) :=
  ⟨username_gate_spec.2.2.2.2.2.2.2.2 "aaaaaaaaaaaaaaaaaaaaa" (by decide),
   by decide,
   username_gate_spec.2.2.1 invalidSession (by decide)⟩

/-- C4: with a profile bound, `applyImpulse` overwrites the actor's vertical
velocity with exactly the profile's impulse magnitude precisely when the run
is running and non-terminal, and in every other state it is an ignored
input, returning the state unchanged and no error. -/
theorem applyImpulse_overwrite_or_noop :
    (∀ s : GameState, ¬(s.gameRunning = true ∧ s.gameOver = false) →
        FlappyKiroGame.applyImpulse s = .ok s) ∧
    (∀ (s : GameState) (cfg : Config), s.config = some cfg →
        s.gameRunning = true → s.gameOver = false →
        FlappyKiroGame.applyImpulse s =
          .ok { s with ghosty := { s.ghosty with velocity := cfg.jumpStrength } }) := by
  constructor
  · intro s h
    unfold FlappyKiroGame.applyImpulse
    rw [if_neg h]
  · intro s cfg hc h1 h2
    unfold FlappyKiroGame.applyImpulse FlappyKiroGame.jump
    rw [if_pos ⟨h1, h2⟩, hc]

/-- C4 witness: a stopped run ignores the impulse; the freshly started easy
run takes velocity −6. -/
theorem applyImpulse_overwrite_or_noop_witness :
    FlappyKiroGame.applyImpulse (FlappyKiroGame.stop easyRun) =
      .ok (FlappyKiroGame.stop easyRun) ∧
    FlappyKiroGame.applyImpulse easyRun =
      .ok { easyRun with ghosty :=
        { easyRun.ghosty with velocity := (difficulties .easy).jumpStrength } } :=
  ⟨applyImpulse_overwrite_or_noop.1 (FlappyKiroGame.stop easyRun) (by simp [FlappyKiroGame.stop]),
   applyImpulse_overwrite_or_noop.2 easyRun (difficulties .easy) rfl rfl rfl⟩

/-- C6 counterexample: `start()` without a prior `setDifficulty` yields a
running, non-terminal state with no bound profile, and one `update()` call
on it faults with a TypeError instead of advancing or no-opping. -/
theorem step_unconfigured_faults :
    unconfiguredRun.gameRunning = true ∧
    unconfiguredRun.gameOver = false ∧
    unconfiguredRun.config = none ∧
    FlappyKiroGame.update 0 unconfiguredRun = .error .unconfiguredTypeError :=
  ⟨rfl, rfl, rfl, rfl⟩

/-- C6 amended: `update()` no-ops exactly on the not-running-or-terminal
states (with or without a bound profile), and is total — it returns without
fault — on every state with a bound profile; only the running, non-terminal,
profile-less states (reachable by `start()` without `setDifficulty`) fault. -/
theorem step_total_when_configured :
    (∀ (r : ℚ) (s : GameState), (s.gameRunning = false ∨ s.gameOver = true) →
        FlappyKiroGame.update r s = .ok (s, none)) ∧
    (∀ (r : ℚ) (s : GameState) (cfg : Config), s.config = some cfg →
        FlappyKiroGame.update r s = .ok (FlappyKiroGame.updateBody r cfg s) ∨
        FlappyKiroGame.update r s = .ok (s, none)) := by
  constructor
  · intro r s h
    unfold FlappyKiroGame.update
    rw [if_pos h]
  · intro r s cfg hc
    unfold FlappyKiroGame.update
    by_cases h : s.gameRunning = false ∨ s.gameOver = true
    · right
      rw [if_pos h]
    · left
      rw [if_neg h, hc]

/-- C6 amended witness: the stopped easy run no-ops; the running easy run
steps without fault. -/
theorem step_total_when_configured_witness :
    FlappyKiroGame.update 0 (FlappyKiroGame.stop easyRun) =
      .ok (FlappyKiroGame.stop easyRun, none) ∧
    (FlappyKiroGame.update 0 easyRun =
        .ok (FlappyKiroGame.updateBody 0 (difficulties .easy) easyRun) ∨
     FlappyKiroGame.update 0 easyRun = .ok (easyRun, none)) :=
  ⟨step_total_when_configured.1 0 (FlappyKiroGame.stop easyRun) (Or.inl rfl),
   step_total_when_configured.2 0 easyRun (difficulties .easy) rfl⟩

/-- C1: on a running, non-terminal state with a bound profile, one `update()`
integrates velocity by gravity and then position by the new velocity
(semi-implicit Euler) before generation, scroll, retirement and the collision
check; with the easy profile from actor y = 300, velocity 0, one tick with no
impulse yields velocity 3/10 and y = 3003/10, and an impulse followed by one
tick yields velocity −57/10 and y = 2943/10. -/
theorem step_semiImplicit_euler (r : ℚ) (s : GameState) (cfg : Config)
    (h1 : s.gameRunning = true) (h2 : s.gameOver = false) (hc : s.config = some cfg) :
    FlappyKiroGame.update r s = .ok (FlappyKiroGame.updateBody r cfg s) ∧
    FlappyKiroGame.updateBody r cfg s =
      FlappyKiroGame.collisionPhase (FlappyKiroGame.retirePhase
        (FlappyKiroGame.scrollPhase cfg (FlappyKiroGame.genPhase r cfg
          (FlappyKiroGame.physicsPhase cfg s)))) ∧
    (FlappyKiroGame.physicsPhase cfg s).ghosty.velocity = s.ghosty.velocity + cfg.gravity ∧
    (FlappyKiroGame.physicsPhase cfg s).ghosty.y =
      s.ghosty.y + (s.ghosty.velocity + cfg.gravity) ∧
    (FlappyKiroGame.updateBody r cfg s).1.ghosty.velocity = s.ghosty.velocity + cfg.gravity ∧
    (FlappyKiroGame.updateBody r cfg s).1.ghosty.y =
      s.ghosty.y + (s.ghosty.velocity + cfg.gravity) ∧
    easyRun.ghosty.y = 300 ∧ easyRun.ghosty.velocity = 0 ∧
    (difficulties .easy).gravity = 3/10 ∧
    (FlappyKiroGame.updateBody r (difficulties .easy) easyRun).1.ghosty.velocity = 3/10 ∧
    (FlappyKiroGame.updateBody r (difficulties .easy) easyRun).1.ghosty.y = 3003/10 ∧
    FlappyKiroGame.applyImpulse easyRun =
      .ok (FlappyKiroGame.jump (difficulties .easy) easyRun) ∧
    (FlappyKiroGame.jump (difficulties .easy) easyRun).ghosty.velocity = -6 ∧
    (FlappyKiroGame.updateBody r (difficulties .easy)
        (FlappyKiroGame.jump (difficulties .easy) easyRun)).1.ghosty.velocity = -57/10 ∧
    (FlappyKiroGame.updateBody r (difficulties .easy)
        (FlappyKiroGame.jump (difficulties .easy) easyRun)).1.ghosty.y = 2943/10 := by
  refine ⟨FlappyKiroGame.update_run r s cfg h1 h2 hc, rfl, rfl, rfl, ?_, ?_, ?_, rfl, rfl,
    ?_, ?_, rfl, rfl, ?_, ?_⟩
  · rw [FlappyKiroGame.updateBody_ghosty]
    rfl
  · rw [FlappyKiroGame.updateBody_ghosty]
    rfl
  · show (600 : ℚ) / 2 = 300
    norm_num
  · rw [FlappyKiroGame.updateBody_ghosty]
    show (0 : ℚ) + 3/10 = 3/10
    norm_num
  · rw [FlappyKiroGame.updateBody_ghosty]
    show (600 : ℚ) / 2 + (0 + 3/10) = 3003/10
    norm_num
  · rw [FlappyKiroGame.updateBody_ghosty]
    show (-6 : ℚ) + 3/10 = -57/10
    norm_num
  · rw [FlappyKiroGame.updateBody_ghosty]
    show (600 : ℚ) / 2 + (-6 + 3/10) = 2943/10
    norm_num

/-- C1 witness: the tick scenario instantiated at the started easy run and
the concrete random draw 1/2. -/
theorem step_semiImplicit_euler_witness :
    easyRun.gameRunning = true ∧ easyRun.gameOver = false ∧
    easyRun.config = some (difficulties .easy) ∧
    (FlappyKiroGame.updateBody (1/2) (difficulties .easy) easyRun).1.ghosty.velocity = 3/10 ∧
    (FlappyKiroGame.updateBody (1/2) (difficulties .easy) easyRun).1.ghosty.y = 3003/10 ∧
    (FlappyKiroGame.updateBody (1/2) (difficulties .easy)
        (FlappyKiroGame.jump (difficulties .easy) easyRun)).1.ghosty.velocity = -57/10 ∧
    (FlappyKiroGame.updateBody (1/2) (difficulties .easy)
        (FlappyKiroGame.jump (difficulties .easy) easyRun)).1.ghosty.y = 2943/10 := by
  obtain ⟨-, -, -, -, -, -, -, -, -, hv, hy, -, -, hv2, hy2⟩ :=
    step_semiImplicit_euler (1/2) easyRun (difficulties .easy) rfl rfl rfl
  exact ⟨rfl, rfl, rfl, hv, hy, hv2, hy2⟩

/-- C3: from a running, non-terminal, configured state, the tick ends the run
exactly when the post-integration intermediate state violates the boundary or
overlaps a wall outside its gap; it then sets the terminal flag, clears the
running flag, and emits exactly one game-over signal carrying the final score
and the deciding reason, while `stop`, `setDifficulty`, `start` and
`applyImpulse` never raise the terminal flag. -/
theorem terminal_only_via_collision :
    (∀ (r : ℚ) (s : GameState) (cfg : Config) (m : GameState)
        (p : GameState × Option GameOverSignal),
        s.gameRunning = true → s.gameOver = false → s.config = some cfg →
        m = FlappyKiroGame.retirePhase (FlappyKiroGame.scrollPhase cfg
              (FlappyKiroGame.genPhase r cfg (FlappyKiroGame.physicsPhase cfg s))) →
        FlappyKiroGame.update r s = .ok p →
        ((p.1.gameOver = true ↔
            (FlappyKiroGame.boundaryHit m || FlappyKiroGame.wallHit m) = true) ∧
         ((FlappyKiroGame.boundaryHit m || FlappyKiroGame.wallHit m) = true →
            p.1.gameOver = true ∧ p.1.gameRunning = false ∧
            p.2 = some { score := m.score
                         difficulty := m.difficulty
                         reason := if FlappyKiroGame.boundaryHit m then CollisionType.boundary
                                   else CollisionType.wall }) ∧
         ((FlappyKiroGame.boundaryHit m || FlappyKiroGame.wallHit m) = false →
            p = (m, none)))) ∧
    (∀ q : GameState,
        (FlappyKiroGame.stop q).gameOver = q.gameOver ∧
        (∀ d : Difficulty, (FlappyKiroGame.setDifficulty d q).gameOver = q.gameOver) ∧
        (FlappyKiroGame.start q).gameOver = false ∧
        (∀ t : GameState, FlappyKiroGame.applyImpulse q = .ok t →
            t.gameOver = q.gameOver)) := by
  constructor
  · intro r s cfg m p h1 h2 hc hm hp
    rw [FlappyKiroGame.update_run r s cfg h1 h2 hc] at hp
    have hpb : p = FlappyKiroGame.updateBody r cfg s := (Except.ok.inj hp).symm
    subst hpb
    have hmo : m.gameOver = false := by
      rw [(FlappyKiroGame.midPhases_fields r cfg s m hm).2.2.1, h2]
    have hbody : FlappyKiroGame.updateBody r cfg s = FlappyKiroGame.collisionPhase m := by
      rw [hm]
      rfl
    rw [hbody]
    exact FlappyKiroGame.collisionPhase_spec m hmo
  · intro q
    refine ⟨rfl, fun d => rfl, rfl, ?_⟩
    intro t ht
    unfold FlappyKiroGame.applyImpulse at ht
    by_cases hg : q.gameRunning = true ∧ q.gameOver = false
    · rw [if_pos hg] at ht
      cases hcq : q.config with
      | none =>
          rw [hcq] at ht
          cases ht
      | some cfg =>
          rw [hcq] at ht
          have := Except.ok.inj ht
          rw [← this]
          rfl
    · rw [if_neg hg] at ht
      have := Except.ok.inj ht
      rw [← this]

/-- C3 witness: the fall tick from `fallState` at random draw 0, whose
intermediate state `fallMid` violates the floor boundary, ends the run. -/
theorem terminal_only_via_collision_witness :
    FlappyKiroGame.boundaryHit fallMid = true ∧
    (FlappyKiroGame.updateBody 0 (difficulties .easy) fallState).1.gameOver = true ∧
    (FlappyKiroGame.updateBody 0 (difficulties .easy) fallState).1.gameRunning = false ∧
    (FlappyKiroGame.updateBody 0 (difficulties .easy) fallState).2 =
      some { score := fallMid.score
             difficulty := fallMid.difficulty
             reason := if FlappyKiroGame.boundaryHit fallMid then CollisionType.boundary
                       else CollisionType.wall } := by
  have hb : FlappyKiroGame.boundaryHit fallMid = true := by
    have hg : fallMid.ghosty =
        (FlappyKiroGame.physicsPhase (difficulties .easy) fallState).ghosty :=
      (FlappyKiroGame.midPhases_fields 0 (difficulties .easy) fallState fallMid rfl).1
    have hh : fallMid.height = 600 :=
      (FlappyKiroGame.midPhases_fields 0 (difficulties .easy) fallState fallMid rfl).2.2.2.2.2.2
    have hy : fallMid.ghosty.y = 590 + (0 + 3/10) := by rw [hg]; rfl
    have hht : fallMid.ghosty.height = 40 := by rw [hg]; rfl
    simp only [FlappyKiroGame.boundaryHit, decide_eq_true_eq, hy, hh, hht]
    right
    norm_num
  obtain ⟨-, hfire, -⟩ :=
    (terminal_only_via_collision.1 0 fallState (difficulties .easy) fallMid
      (FlappyKiroGame.updateBody 0 (difficulties .easy) fallState) rfl rfl rfl rfl rfl)
  obtain ⟨h1, h2, h3⟩ := hfire (by rw [hb]; rfl)
  exact ⟨hb, h1, h2, h3⟩

namespace FlappyKiroGame

/-- The generation guard never changes the score. -/
theorem genPhase_score (r : ℚ) (cfg : Config) (t : GameState) :
    (genPhase r cfg t).score = t.score := by
  rcases genPhase_cases r cfg t with h | ⟨h, -⟩ <;> rw [h]

/-- Core list-level facts about one scroll-and-retire round over a wall list
satisfying the invariant: at most one wall retires, every wall stays
unscored, and the kept walls satisfy the invariant again. -/
theorem step_walls_core (cfg : Config) (L1 : List Wall)
    (hs : 0 < cfg.wallSpeed) (hsp : cfg.wallSpeed ≤ cfg.wallSpacing)
    (h60 : ∀ w ∈ L1, w.width = 60) (hscored : ∀ w ∈ L1, w.scored = false)
    (hlo : ∀ w ∈ L1, (-60 : ℚ) ≤ w.x)
    (hpw : L1.Pairwise (fun a b => a.x + cfg.wallSpacing ≤ b.x)) :
    ∀ L, L = L1.map (fun w => { w with x := w.x - cfg.wallSpeed }) →
      ((L.filter offScreen).length ≤ 1 ∧
       (∀ w ∈ L, w.scored = false) ∧
       (∀ w ∈ L.filter (fun w => ! offScreen w),
          w.width = 60 ∧ w.scored = false ∧ 0 ≤ w.x + w.width) ∧
       (L.filter (fun w => ! offScreen w)).Pairwise
          (fun a b => a.x + cfg.wallSpacing ≤ b.x)) := by
  intro L hLdef
  subst hLdef
  have hpwL : (L1.map (fun w => { w with x := w.x - cfg.wallSpeed })).Pairwise
      (fun a b => a.x + cfg.wallSpacing ≤ b.x) := by
    apply List.pairwise_map.mpr
    exact List.Pairwise.imp (fun hab => by dsimp only; linarith) hpw
  refine ⟨?_, ?_, ?_, List.Pairwise.filter _ hpwL⟩
  · rw [List.map_filter, List.length_map]
    have hcg : L1.filter (offScreen ∘ fun w => { w with x := w.x - cfg.wallSpeed }) =
        L1.filter (fun w => decide (w.x < cfg.wallSpeed - 60)) := by
      apply List.filter_congr
      intro w hw
      have h6 := h60 w hw
      simp only [Function.comp, offScreen]
      rw [h6]
      apply decide_eq_decide.mpr
      constructor <;> intro <;> linarith
    rw [hcg]
    exact count_window_le_one cfg.wallSpacing (cfg.wallSpeed - 60) (-60)
      (by linarith) L1 hlo hpw
  · intro w hw
    rcases List.mem_map.mp hw with ⟨w0, hw0, rfl⟩
    exact hscored w0 hw0
  · intro w hw
    rcases List.mem_filter.mp hw with ⟨hwL, hkp⟩
    rcases List.mem_map.mp hwL with ⟨w0, hw0, rfl⟩
    refine ⟨h60 w0 hw0, hscored w0 hw0, ?_⟩
    have hoff : offScreen { w0 with x := w0.x - cfg.wallSpeed } = false := by
      simpa using hkp
    have h2 : ¬({ w0 with x := w0.x - cfg.wallSpeed } : Wall).x +
        ({ w0 with x := w0.x - cfg.wallSpeed } : Wall).width < 0 := by
      simpa [offScreen] using hoff
    exact not_lt.mp h2

/-- Assembly of one full tick body over a post-generation wall list that
satisfies the invariant: the score grows by the number of retired walls,
at most one wall retires, and the post-tick state satisfies the invariant
again. -/
theorem step_assemble (r : ℚ) (cfg : Config) (s : GameState) (L1 : List Wall)
    (hs : 0 < cfg.wallSpeed) (hsp : cfg.wallSpeed ≤ cfg.wallSpacing)
    (hG : (genPhase r cfg (physicsPhase cfg s)).walls = L1)
    (hGl : (genPhase r cfg (physicsPhase cfg s)).lastWallX = s.width)
    (h60 : ∀ w ∈ L1, w.width = 60) (hscored : ∀ w ∈ L1, w.scored = false)
    (hlo : ∀ w ∈ L1, (-60 : ℚ) ≤ w.x)
    (hpw : L1.Pairwise (fun a b => a.x + cfg.wallSpacing ≤ b.x)) :
    ∀ L, L = (scrollPhase cfg (genPhase r cfg (physicsPhase cfg s))).walls →
      ((updateBody r cfg s).1.score = s.score + (L.filter offScreen).length ∧
       (L.filter offScreen).length ≤ 1 ∧
       (updateBody r cfg s).1.walls = L.filter (fun w => ! offScreen w) ∧
       WallInv cfg (updateBody r cfg s).1) := by
  intro L hL
  have hLm : L = L1.map (fun w => { w with x := w.x - cfg.wallSpeed }) := by
    rw [hL]
    show (genPhase r cfg (physicsPhase cfg s)).walls.map _ = _
    rw [hG]
  obtain ⟨hcnt, hscL, hkeep, hpwK⟩ := step_walls_core cfg L1 hs hsp h60 hscored hlo hpw L hLm
  have hXw : (scrollPhase cfg (genPhase r cfg (physicsPhase cfg s))).walls = L := hL.symm
  have hXs : (scrollPhase cfg (genPhase r cfg (physicsPhase cfg s))).score = s.score := by
    show (genPhase r cfg (physicsPhase cfg s)).score = s.score
    rw [genPhase_score]
    rfl
  have hret := retirePhase_spec (scrollPhase cfg (genPhase r cfg (physicsPhase cfg s)))
    (by rw [hXw]; exact hscL)
  have hp1s : (updateBody r cfg s).1.score =
      (retirePhase (scrollPhase cfg (genPhase r cfg (physicsPhase cfg s)))).score :=
    (collisionPhase_fst_fields _).2.2.1
  have hp1w : (updateBody r cfg s).1.walls =
      (retirePhase (scrollPhase cfg (genPhase r cfg (physicsPhase cfg s)))).walls :=
    (collisionPhase_fst_fields _).2.1
  have hWidth : (updateBody r cfg s).1.width = s.width := by
    have h1 : (updateBody r cfg s).1.width =
        (retirePhase (scrollPhase cfg (genPhase r cfg (physicsPhase cfg s)))).width :=
      (collisionPhase_fst_fields _).2.2.2.1
    rw [h1]
    exact (midPhases_fields r cfg s _ rfl).2.2.2.2.2.1
  have hLX : (updateBody r cfg s).1.lastWallX = s.width := by
    have h1 : (updateBody r cfg s).1.lastWallX =
        (retirePhase (scrollPhase cfg (genPhase r cfg (physicsPhase cfg s)))).lastWallX :=
      (collisionPhase_fst_fields _).2.2.2.2.1
    rw [h1]
    exact hGl
  refine ⟨?_, hcnt, ?_, ?_, ?_, ?_⟩
  · rw [hp1s, hret.1, hXs, hXw]
  · rw [hp1w, hret.2, hXw]
  · intro w hw
    apply hkeep
    rwa [hp1w, hret.2, hXw] at hw
  · rw [hp1w, hret.2, hXw]
    exact hpwK
  · rw [hLX, hWidth]

end FlappyKiroGame

/-- C2: from any running, non-terminal, configured state satisfying the
reachable-state wall invariant (established by `start()` and preserved by
every tick), one `update()` leaves the score non-decreasing and raises it by
at most 1: it adds exactly one point per wall retired past the left edge
this tick — and at most one wall can retire per tick — while every live wall
before and after the tick still carries `scored = false`, so a wall can be
counted only at the single tick in which it is retired and removed. -/
theorem score_increments_on_retirement :
    (∀ (r : ℚ) (s : GameState) (cfg : Config) (p : GameState × Option GameOverSignal)
        (L : List Wall),
        s.config = some cfg → 0 < cfg.wallSpeed → cfg.wallSpeed ≤ cfg.wallSpacing →
        0 ≤ s.width → WallInv cfg s → s.gameRunning = true → s.gameOver = false →
        FlappyKiroGame.update r s = .ok p →
        L = (FlappyKiroGame.scrollPhase cfg (FlappyKiroGame.genPhase r cfg
              (FlappyKiroGame.physicsPhase cfg s))).walls →
        ((∀ w ∈ s.walls, w.scored = false) ∧
         p.1.score = s.score + (L.filter FlappyKiroGame.offScreen).length ∧
         (L.filter FlappyKiroGame.offScreen).length ≤ 1 ∧
         s.score ≤ p.1.score ∧ p.1.score ≤ s.score + 1 ∧
         p.1.walls = L.filter (fun w => ! FlappyKiroGame.offScreen w) ∧
         WallInv cfg p.1)) ∧
    (∀ (q : GameState) (cfg : Config), WallInv cfg (FlappyKiroGame.start q)) := by
  constructor
  · intro r s cfg p L hc hs hsp hw hinv h1 h2 hup hL
    obtain ⟨hwf, hpw, hlast⟩ := hinv
    rw [FlappyKiroGame.update_run r s cfg h1 h2 hc] at hup
    have hpb : p = FlappyKiroGame.updateBody r cfg s := (Except.ok.inj hup).symm
    subst hpb
    have hscored0 : ∀ w ∈ s.walls, w.scored = false := fun w hw2 => (hwf w hw2).2.1
    have h600 : ∀ w ∈ s.walls, w.width = 60 := fun w hw2 => (hwf w hw2).1
    have hlo0 : ∀ w ∈ s.walls, (-60 : ℚ) ≤ w.x := by
      intro w hw2
      have h3 := (hwf w hw2).2.2
      have h6 := (hwf w hw2).1
      rw [h6] at h3
      linarith
    rcases FlappyKiroGame.genPhase_cases r cfg (FlappyKiroGame.physicsPhase cfg s)
      with hg | ⟨hg, hcond⟩
    · have hG : (FlappyKiroGame.genPhase r cfg (FlappyKiroGame.physicsPhase cfg s)).walls
          = s.walls := by
        rw [hg]
        rfl
      have hGl : (FlappyKiroGame.genPhase r cfg (FlappyKiroGame.physicsPhase cfg s)).lastWallX
          = s.width := by
        rw [hg]
        exact hlast
      obtain ⟨e1, e2, e3, e4⟩ :=
        FlappyKiroGame.step_assemble r cfg s s.walls hs hsp hG hGl h600 hscored0 hlo0 hpw L hL
      refine ⟨hscored0, e1, e2, ?_, ?_, e3, e4⟩
      · rw [e1]
        exact Nat.le_add_right _ _
      · rw [e1]
        exact Nat.add_le_add_left e2 _
    · have hG : (FlappyKiroGame.genPhase r cfg (FlappyKiroGame.physicsPhase cfg s)).walls
          = s.walls ++ [FlappyKiroGame.mkWall r cfg (FlappyKiroGame.physicsPhase cfg s)] := by
        rw [hg]
        rfl
      have hGl : (FlappyKiroGame.genPhase r cfg (FlappyKiroGame.physicsPhase cfg s)).lastWallX
          = s.width := by
        rw [hg]
        rfl
      have hnwx : (FlappyKiroGame.mkWall r cfg (FlappyKiroGame.physicsPhase cfg s)).x
          = s.width := rfl
      have h601 : ∀ w ∈ s.walls ++ [FlappyKiroGame.mkWall r cfg
          (FlappyKiroGame.physicsPhase cfg s)], w.width = 60 := by
        intro w hw2
        rcases List.mem_append.mp hw2 with h | h
        · exact h600 w h
        · rcases List.mem_singleton.mp h with rfl
          rfl
      have hscored1 : ∀ w ∈ s.walls ++ [FlappyKiroGame.mkWall r cfg
          (FlappyKiroGame.physicsPhase cfg s)], w.scored = false := by
        intro w hw2
        rcases List.mem_append.mp hw2 with h | h
        · exact hscored0 w h
        · rcases List.mem_singleton.mp h with rfl
          rfl
      have hlo1 : ∀ w ∈ s.walls ++ [FlappyKiroGame.mkWall r cfg
          (FlappyKiroGame.physicsPhase cfg s)], (-60 : ℚ) ≤ w.x := by
        intro w hw2
        rcases List.mem_append.mp hw2 with h | h
        · exact hlo0 w h
        · rcases List.mem_singleton.mp h with rfl
          rw [hnwx]
          linarith
      have hcross : ∀ a ∈ s.walls, a.x + cfg.wallSpacing ≤
          (FlappyKiroGame.mkWall r cfg (FlappyKiroGame.physicsPhase cfg s)).x := by
        rcases hcond with hnil | ⟨w0, hlw, hsep⟩
        · have hnil2 : s.walls = [] := hnil
          intro a ha
          rw [hnil2] at ha
          exact absurd ha (List.not_mem_nil a)
        · intro a ha
          have hlw2 : s.walls.getLast? = some w0 := hlw
          have hsep2 : cfg.wallSpacing ≤ s.lastWallX - w0.x := hsep
          have hw0 : w0.x + cfg.wallSpacing ≤ s.width := by
            rw [← hlast]
            linarith
          rw [hnwx]
          rcases FlappyKiroGame.pairwise_rel_getLast s.walls w0 hpw hlw2 a ha with rfl | hrel
          · exact hw0
          · have hsp0 : (0 : ℚ) ≤ cfg.wallSpacing := by linarith
            linarith
      have hpw1 : (s.walls ++ [FlappyKiroGame.mkWall r cfg
          (FlappyKiroGame.physicsPhase cfg s)]).Pairwise
          (fun a b => a.x + cfg.wallSpacing ≤ b.x) := by
        apply List.pairwise_append.mpr
        refine ⟨hpw, List.pairwise_singleton _ _, ?_⟩
        intro a ha b hb
        rcases List.mem_singleton.mp hb with rfl
        exact hcross a ha
      obtain ⟨e1, e2, e3, e4⟩ :=
        FlappyKiroGame.step_assemble r cfg s
          (s.walls ++ [FlappyKiroGame.mkWall r cfg (FlappyKiroGame.physicsPhase cfg s)])
          hs hsp hG hGl h601 hscored1 hlo1 hpw1 L hL
      refine ⟨hscored0, e1, e2, ?_, ?_, e3, e4⟩
      · rw [e1]
        exact Nat.le_add_right _ _
      · rw [e1]
        exact Nat.add_le_add_left e2 _
  · intro q cfg
    refine ⟨?_, ?_, rfl⟩
    · intro w hw2
      exact absurd hw2 (List.not_mem_nil w)
    · exact List.Pairwise.nil

/-- C2 witness: the invariant holds at the started easy run and one tick at
random draw 0 scores by exactly the retired-wall count, which is at most 1,
preserving the invariant. -/
theorem score_increments_on_retirement_witness :
    WallInv (difficulties .easy) easyRun ∧
    (FlappyKiroGame.updateBody 0 (difficulties .easy) easyRun).1.score =
      easyRun.score + (easyTickWalls.filter FlappyKiroGame.offScreen).length ∧
    (easyTickWalls.filter FlappyKiroGame.offScreen).length ≤ 1 ∧
    WallInv (difficulties .easy) (FlappyKiroGame.updateBody 0 (difficulties .easy) easyRun).1 := by
  have hinv : WallInv (difficulties .easy) easyRun :=
    score_increments_on_retirement.2
      (FlappyKiroGame.setDifficulty .easy (FlappyKiroGame.newGame 800 600)) (difficulties .easy)
  obtain ⟨-, e1, e2, -, -, -, e4⟩ :=
    score_increments_on_retirement.1 0 easyRun (difficulties .easy)
      (FlappyKiroGame.updateBody 0 (difficulties .easy) easyRun) easyTickWalls
      rfl (by show (0 : ℚ) < 2; norm_num) (by show (2 : ℚ) ≤ 300; norm_num)
      (by show (0 : ℚ) ≤ 800; norm_num) hinv rfl rfl rfl rfl
  exact ⟨hinv, e1, e2, e4⟩
